import Mathlib

/-!
Verification of the Canvas-LMS-MCP request gateway.

This file shallowly embeds the parts of the TypeScript sources relevant to the
frozen claims:

* `src/lib/jsonRpc.ts` and `src/rpc.ts` — the JSON-RPC envelope, the Zod
  request schema, `dispatchRequest`, `handleRpcImpl`, and `registerTool`;
* `src/tools/index.ts` — the auxiliary tool registry and its `registerTool`;
* `src/transports/http.ts` — `createRateLimitMiddleware`, the per-client
  fixed-window rate limiter;
* `src/lib/canvas.ts` — `calculateBackoff`, `extractSnippet`,
  `parseLinkHeader`, the `performRequest` retry loop and the `listCourses`
  pagination loop;
* the alternate client generation (`createDelay` from the second client file).

JavaScript `Map` objects and plain objects used as dictionaries are embedded as
association lists with first-match lookup and replace-or-append insertion.
JavaScript strings are embedded as Lean `String`s, with the character-level
operations (`trim`, `slice`, `split`) implemented structurally over `toList`
so that theorems can evaluate them.  Times are naturals (milliseconds), and the
floating-point backoff arithmetic is embedded in `ℚ`, with `Math.random()`
made explicit as a parameter `r ∈ [0, 1)`.
-/

/-! ## Association maps (JS `Map` / object-as-dictionary semantics) -/

/-- First-match lookup, the embedding of `Map.get` / property read. -/
def mapGet {α : Type} : List (String × α) → String → Option α
  | [], _ => none
  | (k, v) :: rest, key => if k = key then some v else mapGet rest key

/-- Replace-or-append insertion, the embedding of `Map.set` / property write. -/
def mapSet {α : Type} : List (String × α) → String → α → List (String × α)
  | [], key, v => [(key, v)]
  | (k, v') :: rest, key, v =>
      if k = key then (key, v) :: rest else (k, v') :: mapSet rest key v

theorem mapGet_mapSet_self {α : Type} (m : List (String × α)) (k : String) (v : α) :
    mapGet (mapSet m k v) k = some v := by
  induction m with
  | nil => simp [mapSet, mapGet]
  | cons hd tl ih =>
      obtain ⟨k', v'⟩ := hd
      by_cases h : k' = k
      · simp [mapSet, mapGet, h]
      · simp [mapSet, mapGet, h, ih]

theorem mem_mapSet {α : Type} (m : List (String × α)) (k : String) (v : α)
    (k' : String) (v' : α) (h : (k', v') ∈ mapSet m k v) :
    (k' = k ∧ v' = v) ∨ (k', v') ∈ m := by
  induction m with
  | nil =>
      simp [mapSet] at h
      exact Or.inl h
  | cons hd tl ih =>
      obtain ⟨k₀, v₀⟩ := hd
      by_cases hk : k₀ = k
      · simp [mapSet, hk] at h
        rcases h with h | h
        · exact Or.inl h
        · exact Or.inr (List.mem_cons_of_mem _ h)
      · simp only [mapSet, if_neg hk, List.mem_cons] at h
        rcases h with h | h
        · exact Or.inr (List.mem_cons.mpr (Or.inl h))
        · rcases ih h with h' | h'
          · exact Or.inl h'
          · exact Or.inr (List.mem_cons_of_mem _ h')

theorem mem_of_mapGet_eq_some {α : Type} (m : List (String × α)) (k : String) (v : α)
    (h : mapGet m k = some v) : (k, v) ∈ m := by
  induction m with
  | nil => simp [mapGet] at h
  | cons hd tl ih =>
      obtain ⟨k₀, v₀⟩ := hd
      by_cases hk : k₀ = k
      · simp [mapGet, hk] at h
        simp [hk, h]
      · simp [mapGet, hk] at h
        exact List.mem_cons_of_mem _ (ih h)

/-! ## JSON values

The decoded form of JSON bodies (`JSON.parse` output).  Numbers are embedded
as integers: no claim involves fractional JSON numbers. -/

inductive Json where
  | null : Json
  | bool (b : Bool) : Json
  | num (n : Int) : Json
  | str (s : String) : Json
  | arr (elems : List Json) : Json
  | obj (fields : List (String × Json)) : Json

/-! ## src/lib/jsonRpc.ts — the JSON-RPC envelope -/

/-- `JSONRPCID = string | number | null` from `src/lib/jsonRpc.ts`. -/
inductive JsonRpcId where
  | str (s : String) : JsonRpcId
  | num (n : Int) : JsonRpcId
  | null : JsonRpcId
deriving DecidableEq

/-- The validated request produced by `jsonRpcRequestSchema` in `src/rpc.ts`.
`id = none` means the field was absent (`undefined`): the call is a
notification.  The constant `jsonrpc: '2.0'` tag is implicit. -/
structure JSONRPCRequest where
  method : String
  params : Option Json
  id : Option JsonRpcId

/-- `JSONRPCError` from `src/lib/jsonRpc.ts`. -/
structure JSONRPCError where
  code : Int
  message : String
  data : Option Json

/-- `JSONRPCResponse` from `src/lib/jsonRpc.ts`; the constant `jsonrpc`
tag is implicit.  Exactly one of `result`/`error` is set by the two
constructors below. -/
structure JSONRPCResponse where
  id : JsonRpcId
  result : Option Json
  error : Option JSONRPCError

/-- `createErrorResponse` from `src/lib/jsonRpc.ts`. -/
def createErrorResponse (id : JsonRpcId) (code : Int) (message : String)
    (data : Option Json := none) : JSONRPCResponse :=
  { id := id, result := none, error := some { code := code, message := message, data := data } }

/-- `createResultResponse` from `src/lib/jsonRpc.ts`. -/
def createResultResponse (id : JsonRpcId) (result : Json) : JSONRPCResponse :=
  { id := id, result := some result, error := none }

/-! ## src/rpc.ts — envelope schema, dispatch, registration -/

/-- The value a TS handler throws: either an `Error` (message and stack) or an
arbitrary non-`Error` value. -/
inductive ThrownValue where
  | err (message stack : String) : ThrownValue
  | other (v : Json) : ThrownValue

/-- A registered tool from `src/rpc.ts`: `schema.safeParse` either yields the
validated params or a structured validation failure (`error.flatten()`), and
the handler either returns a result or throws. -/
structure ToolDef where
  schema : Option Json → Except Json Json
  handler : Json → JSONRPCRequest → Except ThrownValue Json

/-- `jsonRpcRequestSchema.safeParse` from `src/rpc.ts`: the envelope is an
object whose `jsonrpc` field is the literal `"2.0"`, whose `method` is a
string of length ≥ 1, whose `params` is anything (optional), and whose `id`,
when present, is a string, a number, or null. -/
def parseRequest (j : Json) : Option JSONRPCRequest :=
  match j with
  | .obj fields =>
      match mapGet fields "jsonrpc", mapGet fields "method" with
      | some (.str tag), some (.str m) =>
          if tag = "2.0" ∧ 1 ≤ m.length then
            match mapGet fields "id" with
            | none => some { method := m, params := mapGet fields "params", id := none }
            | some (.str s) =>
                some { method := m, params := mapGet fields "params", id := some (.str s) }
            | some (.num n) =>
                some { method := m, params := mapGet fields "params", id := some (.num n) }
            | some .null =>
                some { method := m, params := mapGet fields "params", id := some .null }
            | some _ => none
          else none
      | _, _ => none
  | _ => none

/-- The `data` object attached to the internal-error response in
`dispatchRequest`: `{message, stack}` for an `Error`, and
`{message: 'Unknown error', value}` otherwise. -/
def thrownData : ThrownValue → Json
  | .err m st => .obj [("message", .str m), ("stack", .str st)]
  | .other v => .obj [("message", .str "Unknown error"), ("value", v)]

/-- `dispatchRequest` from `src/rpc.ts`.  `registry` embeds the module-level
`toolRegistry` map.  (The TS −32601 message quotes the method name; the
quoting characters are omitted here.) -/
def dispatchRequest (registry : List (String × ToolDef)) (request : JSONRPCRequest) :
    Option JSONRPCResponse :=
  let shouldRespond := request.id.isSome
  let id := request.id.getD .null
  match mapGet registry request.method with
  | none =>
      if shouldRespond then
        some (createErrorResponse id (-32601)
          ("Method " ++ request.method ++ " was not found."))
      else none
  | some tool =>
      match tool.schema request.params with
      | .error flat =>
          if shouldRespond then
            some (createErrorResponse id (-32602) "Invalid params" (some flat))
          else none
      | .ok parsed =>
          match tool.handler parsed request with
          | .ok result =>
              if shouldRespond then some (createResultResponse id result) else none
          | .error thrown =>
              if shouldRespond then
                some (createErrorResponse id (-32603) "Internal error" (some (thrownData thrown)))
              else none

/-- The raw body given to `handleRpcImpl`: either a JSON-decodable payload or
bytes on which `JSON.parse` throws. -/
inductive RpcBody where
  | decodable (j : Json) : RpcBody
  | undecodable : RpcBody

/-- `handleRpcImpl` from `src/rpc.ts`.  `parseErrData` and `invalidReqData`
stand for the diagnostic payloads the TS builds from the caught exception and
from `parsedRequest.error.flatten()`; their contents are irrelevant to the
claims, so the model is parametric in them. -/
def handleRpc (parseErrData invalidReqData : Option Json)
    (registry : List (String × ToolDef)) (body : RpcBody) : Option JSONRPCResponse :=
  match body with
  | .undecodable => some (createErrorResponse .null (-32700) "Parse error" parseErrData)
  | .decodable j =>
      match parseRequest j with
      | none => some (createErrorResponse .null (-32600) "Invalid Request" invalidReqData)
      | some req => dispatchRequest registry req

/-- `handleRpcImpl.registerTool` from `src/rpc.ts`: registering a method that
is already present throws; otherwise the tool is added. -/
def registerTool (registry : List (String × ToolDef)) (method : String) (tool : ToolDef) :
    Except String (List (String × ToolDef)) :=
  if (mapGet registry method).isSome then
    .error ("A tool handler for method " ++ method ++ " is already registered.")
  else
    .ok (mapSet registry method tool)

/-! ## src/tools/index.ts — the auxiliary registry -/

/-- `ToolDefinition` from `src/tools/index.ts`. -/
structure ToolDefinitionIdx where
  name : String
  description : String
  paramsSchema : Option Json → Except Json Json
  handler : Json → Except ThrownValue Json

/-- `registerTool` from `src/tools/index.ts`: a bare `toolRegistry.set`, with
no occupancy check. -/
def registerToolIdx (registry : List (String × ToolDefinitionIdx)) (method : String)
    (definition : ToolDefinitionIdx) : List (String × ToolDefinitionIdx) :=
  mapSet registry method definition

/-! ## Concrete fixtures for the dispatch claims -/

/-- A tool whose handler throws an `Error` with a distinctive message and
stack, used to exercise the internal-error path of `dispatchRequest`. -/
def toolBoom : ToolDef :=
  { schema := fun p => .ok (p.getD .null)
    handler := fun _ _ => .error (.err "secret detail" "stack frame") }

/-- A tool whose schema rejects every params value, used to exercise the
invalid-params path of `dispatchRequest`. -/
def toolStrict : ToolDef :=
  { schema := fun _ => .error (.str "flattened validation failure")
    handler := fun _ _ => .ok .null }

/-- A trivial tool (schema and handler both succeed). -/
def toolTrivial : ToolDef :=
  { schema := fun p => .ok (p.getD .null)
    handler := fun _ _ => .ok .null }

/-- First registration fixture for the auxiliary registry. -/
def toolIdxFirst : ToolDefinitionIdx :=
  { name := "system.ping", description := "first registration"
    paramsSchema := fun p => .ok (p.getD .null), handler := fun _ => .ok .null }

/-- Second registration fixture for the auxiliary registry, distinguishable
from the first by its description. -/
def toolIdxSecond : ToolDefinitionIdx :=
  { name := "system.ping", description := "second registration"
    paramsSchema := fun p => .ok (p.getD .null), handler := fun _ => .ok .null }

/-! ## C2 — notification silence -/

/-- C2 counterexample: a decodable payload with no identifier that fails
envelope validation (`{"jsonrpc": "2.0"}`, no `method`) does receive a
response — the −32600 invalid-request response — so the claim that a call
with no identifier yields no response of any kind at every stage is false at
the envelope-validation stage. -/
theorem notification_gets_invalid_request_response :
    handleRpc none none [] (.decodable (Json.obj [("jsonrpc", Json.str "2.0")])) =
      some (createErrorResponse .null (-32600) "Invalid Request" none) := by
  rfl

/-- C2 (amended): once the envelope has been validated, a request with no
identifier is silent at every remaining stage — unknown method, parameter
validation failure, handler failure and handler success all yield no
response; but an undecodable body yields a −32700 response and an invalid
envelope yields a −32600 response (both with a null id) regardless of the
absence of an identifier. -/
theorem notification_silence :
    (∀ (registry : List (String × ToolDef)) (request : JSONRPCRequest),
        request.id = none → dispatchRequest registry request = none)
    ∧ (∀ (pd ivd : Option Json) (registry : List (String × ToolDef)),
        handleRpc pd ivd registry .undecodable =
          some (createErrorResponse .null (-32700) "Parse error" pd))
    ∧ (∀ (pd ivd : Option Json) (registry : List (String × ToolDef)) (j : Json),
        parseRequest j = none →
        handleRpc pd ivd registry (.decodable j) =
          some (createErrorResponse .null (-32600) "Invalid Request" ivd)) := by
  refine ⟨?_, ?_, ?_⟩
  · intro registry request h
    unfold dispatchRequest
    rw [h]
    cases hm : mapGet registry request.method with
    | none => simp
    | some tool =>
        cases hs : tool.schema request.params with
        | error flat => simp [hs]
        | ok parsed =>
            cases hh : tool.handler parsed request with
            | ok result => simp [hs, hh]
            | error thrown => simp [hs, hh]
  · intro pd ivd registry
    rfl
  · intro pd ivd registry j h
    simp only [handleRpc]
    rw [h]

/-- Witness for C2: the silence theorem applied to a concrete
identifier-less request with an unregistered method, and the response parts
applied at concrete inputs. -/
theorem notification_silence_witness :
    dispatchRequest [] { method := "nope", params := none, id := none } = none
    ∧ handleRpc none none [] .undecodable =
        some (createErrorResponse .null (-32700) "Parse error" none)
    ∧ handleRpc none none [] (.decodable (Json.str "not an envelope")) =
        some (createErrorResponse .null (-32600) "Invalid Request" none) :=
  ⟨notification_silence.1 [] _ rfl, notification_silence.2.1 none none [],
    notification_silence.2.2 none none [] _ rfl⟩

/-! ## C3 — handler failure redaction -/

/-- C3 counterexample: a handler that throws `Error("secret detail")` produces
an internal-error response whose client-facing `data` field carries the
handler's message and stack verbatim, so the claim that the diagnostic detail
is never echoed to the caller is false. -/
theorem handler_detail_echoed_to_caller :
    dispatchRequest [("boom", toolBoom)] { method := "boom", params := none, id := some (.num 1) } =
      some (createErrorResponse (.num 1) (-32603) "Internal error"
        (some (Json.obj [("message", Json.str "secret detail"),
                         ("stack", Json.str "stack frame")]))) := by
  rfl

/-- C3 (amended): a dispatched call whose handler throws yields an
internal-error response with code −32603 and the fixed top-level message
`Internal error`, but the error's `data` field carries the thrown failure's
diagnostic detail verbatim — for an `Error`, its message and stack — and no
server-side log of it is made. -/
theorem handler_failure_response (registry : List (String × ToolDef))
    (request : JSONRPCRequest) (tool : ToolDef) (parsed : Json) (thrown : ThrownValue)
    (hTool : mapGet registry request.method = some tool)
    (hSchema : tool.schema request.params = .ok parsed)
    (hHandler : tool.handler parsed request = .error thrown)
    (hId : request.id.isSome) :
    dispatchRequest registry request =
      some (createErrorResponse (request.id.getD .null) (-32603) "Internal error"
        (some (thrownData thrown))) := by
  unfold dispatchRequest
  rw [hTool]
  simp only [hSchema, hHandler, hId, if_true]

/-- Witness for C3: the amended theorem applied to the concrete throwing
tool. -/
theorem handler_failure_response_witness :
    dispatchRequest [("boom", toolBoom)] { method := "boom", params := none, id := some (.num 2) } =
      some (createErrorResponse (.num 2) (-32603) "Internal error"
        (some (thrownData (.err "secret detail" "stack frame")))) :=
  handler_failure_response [("boom", toolBoom)]
    { method := "boom", params := none, id := some (.num 2) }
    toolBoom .null (.err "secret detail" "stack frame") rfl rfl rfl rfl

/-! ## C8 — envelope validation and error-code mapping -/

/-- C8 counterexample: a valid envelope naming an unregistered method but
carrying no identifier yields no response at all, not the −32601 response the
claim promises for every dispatched body naming an unregistered method. -/
theorem unknown_method_notification_is_silent :
    handleRpc none none []
      (.decodable (Json.obj [("jsonrpc", Json.str "2.0"), ("method", Json.str "nope")])) =
      none := by
  rfl

/-- The Zod envelope schema only accepts non-empty method names. -/
theorem parseRequest_method_nonempty (j : Json) (req : JSONRPCRequest)
    (h : parseRequest j = some req) : 1 ≤ req.method.length := by
  unfold parseRequest at h
  split at h
  · split at h
    · split at h
      · rename_i hcond
        split at h
        all_goals first
          | (injection h with h'; subst h'; exact hcond.2)
          | exact Option.noConfusion h
      · simp_all
    · simp_all
  · simp_all

/-- Unknown-method branch of `dispatchRequest` for requests carrying an
identifier. -/
theorem dispatch_unknown_method (registry : List (String × ToolDef))
    (req : JSONRPCRequest) (hid : req.id.isSome)
    (hm : mapGet registry req.method = none) :
    dispatchRequest registry req =
      some (createErrorResponse (req.id.getD .null) (-32601)
        ("Method " ++ req.method ++ " was not found.")) := by
  unfold dispatchRequest
  rw [hm]
  simp only [hid, if_true]

/-- Invalid-params branch of `dispatchRequest` for requests carrying an
identifier. -/
theorem dispatch_invalid_params (registry : List (String × ToolDef))
    (req : JSONRPCRequest) (tool : ToolDef) (flat : Json) (hid : req.id.isSome)
    (hm : mapGet registry req.method = some tool)
    (hs : tool.schema req.params = .error flat) :
    dispatchRequest registry req =
      some (createErrorResponse (req.id.getD .null) (-32602) "Invalid params" (some flat)) := by
  unfold dispatchRequest
  rw [hm]
  simp only [hs, hid, if_true]

/-- C8 (amended): an undecodable body yields −32700; a decodable payload that
is not a valid envelope yields −32600 (both regardless of any identifier); a
valid envelope naming an unregistered method yields −32601 and a registered
method whose params fail the schema yields −32602, in each case provided the
request carries an identifier (identifier-less requests yield no response at
those stages); and envelope validation requires a non-empty method. -/
theorem error_code_mapping :
    (∀ (pd ivd : Option Json) (registry : List (String × ToolDef)),
        handleRpc pd ivd registry .undecodable =
          some (createErrorResponse .null (-32700) "Parse error" pd))
    ∧ (∀ (pd ivd : Option Json) (registry : List (String × ToolDef)) (j : Json),
        parseRequest j = none →
        handleRpc pd ivd registry (.decodable j) =
          some (createErrorResponse .null (-32600) "Invalid Request" ivd))
    ∧ (∀ (pd ivd : Option Json) (registry : List (String × ToolDef)) (j : Json)
        (req : JSONRPCRequest),
        parseRequest j = some req → req.id.isSome →
        mapGet registry req.method = none →
        handleRpc pd ivd registry (.decodable j) =
          some (createErrorResponse (req.id.getD .null) (-32601)
            ("Method " ++ req.method ++ " was not found.")))
    ∧ (∀ (pd ivd : Option Json) (registry : List (String × ToolDef)) (j : Json)
        (req : JSONRPCRequest) (tool : ToolDef) (flat : Json),
        parseRequest j = some req → req.id.isSome →
        mapGet registry req.method = some tool →
        tool.schema req.params = .error flat →
        handleRpc pd ivd registry (.decodable j) =
          some (createErrorResponse (req.id.getD .null) (-32602) "Invalid params" (some flat)))
    ∧ (∀ (j : Json) (req : JSONRPCRequest),
        parseRequest j = some req → 1 ≤ req.method.length) := by
  refine ⟨?_, ?_, ?_, ?_, ?_⟩
  · intro pd ivd registry
    rfl
  · intro pd ivd registry j h
    simp only [handleRpc]
    rw [h]
  · intro pd ivd registry j req hj hid hm
    simp only [handleRpc]
    rw [hj]
    exact dispatch_unknown_method registry req hid hm
  · intro pd ivd registry j req tool flat hj hid hm hs
    simp only [handleRpc]
    rw [hj]
    exact dispatch_invalid_params registry req tool flat hid hm hs
  · exact parseRequest_method_nonempty

/-- Witness for C8: every part of the mapping theorem applied at a concrete
input. -/
theorem error_code_mapping_witness :
    handleRpc none none [] .undecodable =
        some (createErrorResponse .null (-32700) "Parse error" none)
    ∧ handleRpc none none [] (.decodable (Json.obj [("jsonrpc", Json.str "2.0")])) =
        some (createErrorResponse .null (-32600) "Invalid Request" none)
    ∧ handleRpc none none []
        (.decodable (Json.obj [("jsonrpc", Json.str "2.0"), ("method", Json.str "nope"),
          ("id", Json.num 7)])) =
        some (createErrorResponse (.num 7) (-32601) ("Method " ++ "nope" ++ " was not found."))
    ∧ handleRpc none none [("strict", toolStrict)]
        (.decodable (Json.obj [("jsonrpc", Json.str "2.0"), ("method", Json.str "strict"),
          ("id", Json.num 8)])) =
        some (createErrorResponse (.num 8) (-32602) "Invalid params"
          (some (Json.str "flattened validation failure")))
    ∧ 1 ≤ ("nope" : String).length :=
  ⟨error_code_mapping.1 none none [],
    error_code_mapping.2.1 none none [] _ rfl,
    error_code_mapping.2.2.1 none none [] _
      { method := "nope", params := none, id := some (.num 7) } rfl rfl rfl,
    error_code_mapping.2.2.2.1 none none [("strict", toolStrict)] _
      { method := "strict", params := none, id := some (.num 8) }
      toolStrict (Json.str "flattened validation failure") rfl rfl rfl rfl,
    error_code_mapping.2.2.2.2
      (Json.obj [("jsonrpc", Json.str "2.0"), ("method", Json.str "nope"),
        ("id", Json.num 7)])
      { method := "nope", params := none, id := some (.num 7) } rfl⟩

/-! ## C9 — registry uniqueness -/

/-- C9 counterexample: the `registerTool` of `src/tools/index.ts` registers a
second definition under an already-registered method name without raising any
error — the second registration silently replaces the first — refuting the
claim that every registration under a taken name fails and leaves the
existing registration unchanged. -/
theorem reregistration_silently_overwrites :
    registerToolIdx (registerToolIdx [] "system.ping" toolIdxFirst) "system.ping" toolIdxSecond =
      [("system.ping", toolIdxSecond)]
    ∧ toolIdxSecond.description ≠ toolIdxFirst.description := by
  exact ⟨rfl, by decide⟩

/-- C9 (amended): the dispatcher registry's `registerTool` (`src/rpc.ts`)
fails at configuration time on a duplicate method name — it raises an error
and produces no new registry, leaving the existing registration unchanged —
and adds the tool when the name is free; the auxiliary registry's
`registerTool` (`src/tools/index.ts`) performs no occupancy check and always
replaces the existing registration. -/
theorem registry_uniqueness (registry : List (String × ToolDef)) (method : String)
    (tool : ToolDef) (registryIdx : List (String × ToolDefinitionIdx))
    (defn : ToolDefinitionIdx) :
    ((mapGet registry method).isSome →
      registerTool registry method tool =
        .error ("A tool handler for method " ++ method ++ " is already registered."))
    ∧ (mapGet registry method = none →
      registerTool registry method tool = .ok (mapSet registry method tool))
    ∧ registerToolIdx registryIdx method defn = mapSet registryIdx method defn
    ∧ mapGet (registerToolIdx registryIdx method defn) method = some defn := by
  refine ⟨?_, ?_, rfl, mapGet_mapSet_self registryIdx method defn⟩
  · intro h
    unfold registerTool
    rw [if_pos h]
  · intro h
    unfold registerTool
    rw [h]
    rfl

/-- Witness for C9: the uniqueness theorem applied at a concrete occupied and
a concrete free registry. -/
theorem registry_uniqueness_witness :
    registerTool [("m", toolTrivial)] "m" toolBoom =
      .error ("A tool handler for method " ++ "m" ++ " is already registered.")
    ∧ registerTool [] "m" toolTrivial = .ok (mapSet [] "m" toolTrivial)
    ∧ registerToolIdx [("system.ping", toolIdxFirst)] "system.ping" toolIdxSecond =
        mapSet [("system.ping", toolIdxFirst)] "system.ping" toolIdxSecond
    ∧ mapGet (registerToolIdx [("system.ping", toolIdxFirst)] "system.ping" toolIdxSecond)
        "system.ping" = some toolIdxSecond :=
  ⟨(registry_uniqueness [("m", toolTrivial)] "m" toolBoom [] toolIdxFirst).1 rfl,
    (registry_uniqueness [] "m" toolTrivial [] toolIdxFirst).2.1 rfl,
    (registry_uniqueness [] "system.ping" toolTrivial
      [("system.ping", toolIdxFirst)] toolIdxSecond).2.2.1,
    (registry_uniqueness [] "system.ping" toolTrivial
      [("system.ping", toolIdxFirst)] toolIdxSecond).2.2.2⟩

/-! ## src/transports/http.ts — createRateLimitMiddleware

The middleware closure holds a `Map` from client key to `{count, resetAt}`.
Times are naturals counting milliseconds (`Date.now()`), so
`Math.ceil((resetAt - now) / 1000)` for `now < resetAt` is the natural
ceiling division `(resetAt - now + 999) / 1000`. -/

/-- `Bucket` from `createRateLimitMiddleware`. -/
structure Bucket where
  count : Nat
  resetAt : Nat
deriving DecidableEq

/-- `RateLimitConfig` from `src/transports/http.ts`. -/
structure RateLimitConfig where
  windowMs : Nat
  maxRequests : Nat
deriving DecidableEq

/-- The middleware's outcome for one call: pass the request on (`next()`), or
answer 429 with a `Retry-After` hint of the given number of seconds. -/
inductive RateDecision where
  | allow : RateDecision
  | reject (retryAfterSeconds : Nat) : RateDecision
deriving DecidableEq

/-- One execution of the rate-limit middleware body for a call from `key`
arriving at time `now`. -/
def rateLimitStep (cfg : RateLimitConfig) (buckets : List (String × Bucket))
    (key : String) (now : Nat) : RateDecision × List (String × Bucket) :=
  match mapGet buckets key with
  | none =>
      (.allow, mapSet buckets key { count := 1, resetAt := now + cfg.windowMs })
  | some existing =>
      if existing.resetAt ≤ now then
        (.allow, mapSet buckets key { count := 1, resetAt := now + cfg.windowMs })
      else if cfg.maxRequests < existing.count + 1 then
        (.reject (max 1 ((existing.resetAt - now + 999) / 1000)), buckets)
      else
        (.allow, mapSet buckets key { count := existing.count + 1, resetAt := existing.resetAt })

/-- Sequential processing of a list of `(key, arrival time)` calls by the
middleware, yielding the decisions in order and the final bucket map. -/
def runCalls (cfg : RateLimitConfig) :
    List (String × Bucket) → List (String × Nat) → List RateDecision × List (String × Bucket)
  | buckets, [] => ([], buckets)
  | buckets, (key, now) :: rest =>
      let step := rateLimitStep cfg buckets key now
      let next := runCalls cfg step.2 rest
      (step.1 :: next.1, next.2)

theorem runCalls_append (cfg : RateLimitConfig) (st : List (String × Bucket))
    (xs ys : List (String × Nat)) :
    runCalls cfg st (xs ++ ys) =
      ((runCalls cfg st xs).1 ++ (runCalls cfg (runCalls cfg st xs).2 ys).1,
        (runCalls cfg (runCalls cfg st xs).2 ys).2) := by
  induction xs generalizing st with
  | nil => simp [runCalls]
  | cons hd tl ih =>
      obtain ⟨key, now⟩ := hd
      simp [runCalls, ih]

/-- Calls from one key that arrive strictly before the bucket's reset time and
keep the count within the threshold are all allowed, and only increment the
count. -/
theorem allow_within_window (cfg : RateLimitConfig) (k : String) :
    ∀ (ts : List Nat) (st : List (String × Bucket)) (c r : Nat),
    mapGet st k = some { count := c, resetAt := r } →
    (∀ t ∈ ts, t < r) →
    c + ts.length ≤ cfg.maxRequests →
    (runCalls cfg st (ts.map fun t => (k, t))).1 = List.replicate ts.length .allow
    ∧ mapGet (runCalls cfg st (ts.map fun t => (k, t))).2 k =
        some { count := c + ts.length, resetAt := r } := by
  intro ts
  induction ts with
  | nil =>
      intro st c r hget _ _
      simpa [runCalls] using hget
  | cons t ts ih =>
      intro st c r hget hts hcount
      have htlt : t < r := hts t (List.mem_cons_self t ts)
      have hstep : rateLimitStep cfg st k t =
          (.allow, mapSet st k { count := c + 1, resetAt := r }) := by
        unfold rateLimitStep
        rw [hget]
        have h1 : ¬ r ≤ t := not_le.mpr htlt
        have h2 : ¬ cfg.maxRequests < c + 1 := by
          have : c + 1 ≤ cfg.maxRequests := by
            have := hcount
            simp only [List.length_cons] at this
            omega
          omega
        simp [h1, h2]
      have hget' : mapGet (mapSet st k { count := c + 1, resetAt := r }) k =
          some { count := c + 1, resetAt := r } := mapGet_mapSet_self st k _
      have hts' : ∀ t' ∈ ts, t' < r := fun t' ht' => hts t' (List.mem_cons_of_mem t ht')
      have hcount' : c + 1 + ts.length ≤ cfg.maxRequests := by
        simp only [List.length_cons] at hcount
        omega
      have ihr := ih (mapSet st k { count := c + 1, resetAt := r }) (c + 1) r hget' hts' hcount'
      constructor
      · simp only [List.map_cons, runCalls, hstep, List.length_cons, List.replicate_succ]
        rw [ihr.1]
      · simp only [List.map_cons, runCalls, hstep, List.length_cons]
        rw [show c + (ts.length + 1) = c + 1 + ts.length by omega]
        exact ihr.2

/-! ## C1 — rate limiter transition function and window scenario -/

/-- C1: the rate limiter behaves as specified.  For a window of `windowMs`
and threshold `maxRequests = m ≥ 1`, starting from an empty bucket map, a
first call from one client at `t1` followed by `m − 1` further calls inside
the window are all allowed (the first creates the bucket
`(count = 1, resetAt = t1 + windowMs)`, the others increment the count);
call `m + 1` inside the window is rejected with a `Retry-After` hint of
`max 1 ⌈(resetAt − t) / 1000⌉` seconds — hence ≥ 1 second — and a call at or
after `resetAt` is allowed again (a fresh bucket is created). -/
theorem rate_limiter_window (cfg : RateLimitConfig) (k : String) (t1 : Nat)
    (ts : List Nat) (tReject tAfter : Nat)
    (hm : 1 ≤ cfg.maxRequests)
    (hlen : ts.length = cfg.maxRequests - 1)
    (hts : ∀ t ∈ ts, t < t1 + cfg.windowMs)
    (hr : tReject < t1 + cfg.windowMs)
    (ha : t1 + cfg.windowMs ≤ tAfter) :
    (runCalls cfg [] ((k, t1) :: (ts.map fun t => (k, t))
        ++ [(k, tReject), (k, tAfter)])).1 =
      List.replicate cfg.maxRequests .allow
        ++ [.reject (max 1 ((t1 + cfg.windowMs - tReject + 999) / 1000)), .allow]
    ∧ 1 ≤ max 1 ((t1 + cfg.windowMs - tReject + 999) / 1000) := by
  refine ⟨?_, le_max_left _ _⟩
  have hstep1 : rateLimitStep cfg [] k t1 =
      (.allow, [(k, { count := 1, resetAt := t1 + cfg.windowMs })]) := by
    unfold rateLimitStep
    simp [mapGet, mapSet]
  have hget1 : mapGet [(k, ({ count := 1, resetAt := t1 + cfg.windowMs } : Bucket))] k =
      some ({ count := 1, resetAt := t1 + cfg.windowMs } : Bucket) := by
    simp [mapGet]
  have hcount : 1 + ts.length ≤ cfg.maxRequests := by omega
  have hmid := allow_within_window cfg k ts
    [(k, ({ count := 1, resetAt := t1 + cfg.windowMs } : Bucket))] 1 (t1 + cfg.windowMs)
    hget1 hts hcount
  set st2 := (runCalls cfg [(k, ({ count := 1, resetAt := t1 + cfg.windowMs } : Bucket))]
      (ts.map fun t => (k, t))).2 with hst2
  have hget2 : mapGet st2 k =
      some { count := 1 + ts.length, resetAt := t1 + cfg.windowMs } := hmid.2
  have hfull : 1 + ts.length = cfg.maxRequests := by omega
  have hstepR : rateLimitStep cfg st2 k tReject =
      (.reject (max 1 ((t1 + cfg.windowMs - tReject + 999) / 1000)), st2) := by
    unfold rateLimitStep
    rw [hget2]
    have h1 : ¬ t1 + cfg.windowMs ≤ tReject := not_le.mpr hr
    have h2 : cfg.maxRequests < 1 + ts.length + 1 := by omega
    simp [h1, h2]
  have hstepA : rateLimitStep cfg st2 k tAfter =
      (.allow, mapSet st2 k { count := 1, resetAt := tAfter + cfg.windowMs }) := by
    unfold rateLimitStep
    rw [hget2]
    simp [ha]
  rw [show (k, t1) :: (ts.map fun t => (k, t)) ++ [(k, tReject), (k, tAfter)] =
      (k, t1) :: ((ts.map fun t => (k, t)) ++ [(k, tReject), (k, tAfter)]) by simp]
  simp only [runCalls, hstep1]
  rw [runCalls_append]
  simp only [hmid.1, ← hst2]
  simp only [runCalls, hstepR, hstepA]
  rw [show cfg.maxRequests = ts.length + 1 by omega, List.replicate_succ]
  rfl

/-- Witness for C1: window 1000 ms, limit 2; calls at 0 ms and 10 ms are
allowed, the call at 20 ms is rejected with a 1-second hint, and the call at
1000 ms is allowed again. -/
theorem rate_limiter_window_witness :
    (runCalls { windowMs := 1000, maxRequests := 2 } []
        [("client", 0), ("client", 10), ("client", 20), ("client", 1000)]).1 =
      List.replicate 2 .allow
        ++ [.reject (max 1 ((0 + 1000 - 20 + 999) / 1000)), .allow]
    ∧ 1 ≤ max 1 ((0 + 1000 - 20 + 999) / 1000) :=
  rate_limiter_window { windowMs := 1000, maxRequests := 2 } "client" 0 [10] 20 1000
    (by decide) (by decide) (by decide) (by decide) (by decide)

/-! ## C10 — rate-limit bucket invariant -/

/-- The bucket invariant: every bucket holds a count between 1 and the
threshold, and its reset time is the arrival time of some processed call from
that key plus the window. -/
def RateInv (cfg : RateLimitConfig) (seen : List (String × Nat))
    (st : List (String × Bucket)) : Prop :=
  ∀ k b, (k, b) ∈ st →
    1 ≤ b.count ∧ b.count ≤ cfg.maxRequests ∧
    ∃ t, (k, t) ∈ seen ∧ b.resetAt = t + cfg.windowMs

theorem RateInv.mono (cfg : RateLimitConfig) (seen seen' : List (String × Nat))
    (st : List (String × Bucket)) (hsub : ∀ c ∈ seen, c ∈ seen')
    (h : RateInv cfg seen st) : RateInv cfg seen' st := by
  intro k b hb
  obtain ⟨h1, h2, t, ht, hr⟩ := h k b hb
  exact ⟨h1, h2, t, hsub _ ht, hr⟩

theorem rateLimitStep_preserves_inv (cfg : RateLimitConfig)
    (hm : 1 ≤ cfg.maxRequests) (seen : List (String × Nat))
    (st : List (String × Bucket)) (key : String) (now : Nat)
    (h : RateInv cfg seen st) :
    RateInv cfg ((key, now) :: seen) (rateLimitStep cfg st key now).2 := by
  have hmono : RateInv cfg ((key, now) :: seen) st :=
    RateInv.mono cfg seen _ st (fun c hc => List.mem_cons_of_mem _ hc) h
  have hfresh : ∀ k b,
      (k, b) ∈ mapSet st key { count := 1, resetAt := now + cfg.windowMs } →
      1 ≤ b.count ∧ b.count ≤ cfg.maxRequests ∧
      ∃ t, (k, t) ∈ (key, now) :: seen ∧ b.resetAt = t + cfg.windowMs := by
    intro k b hb
    rcases mem_mapSet st key _ k b hb with ⟨hk, hbv⟩ | hb'
    · subst hk; subst hbv
      exact ⟨le_refl 1, hm, now, List.mem_cons_self _ _, rfl⟩
    · exact hmono k b hb'
  unfold rateLimitStep
  cases hget : mapGet st key with
  | none => exact hfresh
  | some existing =>
      by_cases h1 : existing.resetAt ≤ now
      · simp only [h1, if_true]
        exact hfresh
      · by_cases h2 : cfg.maxRequests < existing.count + 1
        · simp only [h1, if_false, h2, if_true]
          exact hmono
        · simp only [h1, if_false, h2]
          intro k b hb
          rcases mem_mapSet st key _ k b hb with ⟨hk, hbv⟩ | hb'
          · obtain ⟨hc1, hc2, t, ht, hrr⟩ :=
              hmono key existing (mem_of_mapGet_eq_some st key existing hget)
            subst hk; subst hbv
            refine ⟨?_, ?_, t, ht, ?_⟩
            · show 1 ≤ existing.count + 1
              omega
            · show existing.count + 1 ≤ cfg.maxRequests
              omega
            · show existing.resetAt = t + cfg.windowMs
              exact hrr
          · exact hmono k b hb'

theorem runCalls_preserves_inv (cfg : RateLimitConfig) (hm : 1 ≤ cfg.maxRequests) :
    ∀ (calls : List (String × Nat)) (st : List (String × Bucket))
      (seen : List (String × Nat)), RateInv cfg seen st →
      RateInv cfg (seen ++ calls) (runCalls cfg st calls).2 := by
  intro calls
  induction calls with
  | nil =>
      intro st seen h
      simpa [runCalls] using h
  | cons hd tl ih =>
      intro st seen h
      obtain ⟨key, now⟩ := hd
      have hstep := rateLimitStep_preserves_inv cfg hm seen st key now h
      have := ih (rateLimitStep cfg st key now).2 ((key, now) :: seen) hstep
      have hperm : ∀ c ∈ (key, now) :: seen ++ tl, c ∈ seen ++ (key, now) :: tl := by
        intro c hc
        simp only [List.mem_cons, List.mem_append] at hc ⊢
        tauto
      simp only [runCalls]
      exact RateInv.mono cfg _ _ _ hperm this

/-- C10: for every threshold `maxRequests ≥ 1` and every call sequence
processed from an empty map, every bucket in the resulting map satisfies
`1 ≤ count ≤ maxRequests` (a rejected call never increments the count), and
its `resetAt` equals the arrival time of the call that created it plus
`windowMs`.  Since the call sequence is arbitrary, this holds after every
prefix, i.e. at all times. -/
theorem rate_bucket_invariant (cfg : RateLimitConfig) (hm : 1 ≤ cfg.maxRequests)
    (calls : List (String × Nat)) (k : String) (b : Bucket)
    (hmem : (k, b) ∈ (runCalls cfg [] calls).2) :
    1 ≤ b.count ∧ b.count ≤ cfg.maxRequests ∧
    ∃ t, (k, t) ∈ calls ∧ b.resetAt = t + cfg.windowMs := by
  have hempty : RateInv cfg [] [] := by
    intro k' b' hb'
    simp at hb'
  have := runCalls_preserves_inv cfg hm calls [] [] hempty
  simp only [List.nil_append] at this
  exact this k b hmem

/-- Witness for C10: after calls at 5 ms and 7 ms with threshold 2, the bucket
for the client holds `(count = 2, resetAt = 1005)`, within bounds and created
by the call at 5 ms. -/
theorem rate_bucket_invariant_witness :
    1 ≤ ({ count := 2, resetAt := 1005 } : Bucket).count
    ∧ ({ count := 2, resetAt := 1005 } : Bucket).count ≤
        ({ windowMs := 1000, maxRequests := 2 } : RateLimitConfig).maxRequests
    ∧ ∃ t, ("client", t) ∈ [("client", 5), ("client", 7)]
        ∧ ({ count := 2, resetAt := 1005 } : Bucket).resetAt =
            t + ({ windowMs := 1000, maxRequests := 2 } : RateLimitConfig).windowMs :=
  rate_bucket_invariant { windowMs := 1000, maxRequests := 2 } (by decide)
    [("client", 5), ("client", 7)] "client" { count := 2, resetAt := 1005 } (by decide)

/-! ## src/lib/canvas.ts — backoff arithmetic

Floating-point arithmetic is embedded in `ℚ` (the operations involved are
exact), and `Math.random()` is made explicit as a parameter `r` with
`0 ≤ r < 1`.  `retryAfter` is the already-parsed hint from
`parseRetryAfter` in milliseconds (`undefined` ↦ `none`). -/

/-- `calculateBackoff` from `src/lib/canvas.ts`. -/
def calculateBackoff (baseDelay : ℚ) (attemptIndex : Int) (retryAfter : Option ℚ)
    (r : ℚ) : ℚ :=
  match retryAfter with
  | some v => v
  | none =>
      if attemptIndex ≤ 0 then 0
      else
        let backoff := baseDelay * (2 : ℚ) ^ (attemptIndex - 1)
        backoff + r * (0.25 : ℚ) * backoff

/-- `createDelay` from the alternate Canvas client file: unlike
`calculateBackoff`, it only honors a strictly positive hint. -/
def createDelay (baseDelayMs : ℚ) (attempt : Int) (retryAfter : Option ℚ)
    (r : ℚ) : ℚ :=
  match retryAfter with
  | some v =>
      if 0 < v then v
      else
        let exponential := baseDelayMs * (2 : ℚ) ^ (attempt - 1)
        exponential + r * (0.25 : ℚ) * exponential
  | none =>
      let exponential := baseDelayMs * (2 : ℚ) ^ (attempt - 1)
      exponential + r * (0.25 : ℚ) * exponential

/-! ## C5 — backoff wait duration -/

/-- C5 counterexample: a zero-second retry hint (`Retry-After: 0`, parsed to
`0` ms, a non-negative seconds count) is not honored by `createDelay`: with
base 100 ms on the first retry it waits the exponential 100 ms, not the
hinted 0 ms. -/
theorem zero_retry_hint_not_honored :
    createDelay 100 1 (some 0) 0 = 100 ∧ (100 : ℚ) ≠ 0 := by
  constructor
  · show (if (0 : ℚ) < 0 then (0 : ℚ) else _) = 100
    norm_num
  · norm_num

/-- C5 (amended): `calculateBackoff` returns any present hint exactly
(including zero); `createDelay` returns the hint exactly only when it is
strictly positive, falling back to the exponential formula for a zero (or
negative) hint; and with no hint both compute
`base × 2^(attemptIndex−1)` plus `r × 0.25` of it, which for `0 ≤ r < 1`
lies in `[base × 2^(attemptIndex−1), 1.25 × base × 2^(attemptIndex−1))`
(`attemptIndex` is the 1-based count of retries already performed). -/
theorem backoff_wait_bounds (base : ℚ) (i : Int) (hint : ℚ) (r : ℚ)
    (hi : 1 ≤ i) (hr0 : 0 ≤ r) (hr1 : r < 1) (hbase : 0 < base) :
    calculateBackoff base i (some hint) r = hint
    ∧ (0 < hint → createDelay base i (some hint) r = hint)
    ∧ (hint ≤ 0 → createDelay base i (some hint) r = createDelay base i none r)
    ∧ base * (2 : ℚ) ^ (i - 1) ≤ calculateBackoff base i none r
    ∧ calculateBackoff base i none r < (1.25 : ℚ) * (base * (2 : ℚ) ^ (i - 1))
    ∧ createDelay base i none r = calculateBackoff base i none r := by
  have hnot : ¬ i ≤ 0 := by omega
  have hpow : (0 : ℚ) < (2 : ℚ) ^ (i - 1) := zpow_pos (by norm_num) _
  have hB : (0 : ℚ) < base * (2 : ℚ) ^ (i - 1) := mul_pos hbase hpow
  refine ⟨rfl, ?_, ?_, ?_, ?_, ?_⟩
  · intro hpos
    show (if (0 : ℚ) < hint then hint else _) = hint
    rw [if_pos hpos]
  · intro hneg
    show (if (0 : ℚ) < hint then hint else _) = _
    rw [if_neg (not_lt.mpr hneg)]
    rfl
  · show base * (2 : ℚ) ^ (i - 1) ≤
        (if i ≤ 0 then (0 : ℚ) else _)
    rw [if_neg hnot]
    nlinarith [mul_nonneg (mul_nonneg hr0 (by norm_num : (0 : ℚ) ≤ 0.25)) hB.le]
  · show (if i ≤ 0 then (0 : ℚ) else _) < (1.25 : ℚ) * (base * (2 : ℚ) ^ (i - 1))
    rw [if_neg hnot]
    nlinarith [hB, hr1, hr0]
  · show _ = (if i ≤ 0 then (0 : ℚ) else _)
    rw [if_neg hnot]
    rfl

/-- Witness for C5: the bounds theorem applied at base 100, first retry,
hint 3 ms, `r = 1/2`. -/
theorem backoff_wait_bounds_witness :
    calculateBackoff 100 1 (some 3) (1/2) = 3
    ∧ ((0 : ℚ) < 3 → createDelay 100 1 (some 3) (1/2) = 3)
    ∧ ((3 : ℚ) ≤ 0 → createDelay 100 1 (some 3) (1/2) = createDelay 100 1 none (1/2))
    ∧ 100 * (2 : ℚ) ^ ((1 : ℤ) - 1) ≤ calculateBackoff 100 1 none (1/2)
    ∧ calculateBackoff 100 1 none (1/2) < (1.25 : ℚ) * (100 * (2 : ℚ) ^ ((1 : ℤ) - 1))
    ∧ createDelay 100 1 none (1/2) = calculateBackoff 100 1 none (1/2) :=
  backoff_wait_bounds 100 1 3 (1/2) (by norm_num) (by norm_num) (by norm_num) (by norm_num)

/-! ## src/lib/canvas.ts — body snippets and the retry loop

JS strings are embedded as `String`, with `trim`/`slice` implemented
structurally over the character list so that theorems can compute with
them. -/

/-- The whitespace removed by `String.prototype.trim` (the ASCII cases). -/
def isJsWhitespace (c : Char) : Bool :=
  c = ' ' || c = '\t' || c = '\n' || c = '\r' || c = '\x0B' || c = '\x0C'

/-- Trim of a character list: drop whitespace from both ends. -/
def trimCharList (l : List Char) : List Char :=
  ((l.dropWhile isJsWhitespace).reverse.dropWhile isJsWhitespace).reverse

/-- `String.prototype.trim`. -/
def jsTrim (s : String) : String := String.mk (trimCharList s.toList)

/-- `String.prototype.slice(0, n)` for `0 ≤ n`. -/
def jsSlice (s : String) (n : Nat) : String := String.mk (s.toList.take n)

/-- `ERROR_BODY_SNIPPET_LIMIT` from `src/lib/canvas.ts`. -/
def ERROR_BODY_SNIPPET_LIMIT : Nat := 200

/-- `extractSnippet` from `src/lib/canvas.ts`.  The argument is the body text
read from the response (`null` ↦ `none`); the JS guard `if (!body)` also
catches the empty string. -/
def extractSnippet (body : Option String) : Option String :=
  match body with
  | none => none
  | some b =>
      if b.isEmpty then none
      else
        let trimmed := jsTrim b
        if trimmed.length ≤ ERROR_BODY_SNIPPET_LIMIT then some trimmed
        else some (jsSlice trimmed ERROR_BODY_SNIPPET_LIMIT ++ "…")

/-- `CanvasHttpError` from `src/lib/canvas.ts`. -/
structure CanvasHttpError where
  message : String
  status : Nat
  url : String
  bodySnippet : Option String
deriving DecidableEq

/-- The observable outcome of one `fetchImpl` attempt inside
`performRequest`: a success (`response.ok`), a non-ok HTTP response with its
status, parsed `retry-after` hint and body text, or a thrown timeout/network
error (`aborted` marks `AbortError`). -/
inductive AttemptOutcome where
  | ok : AttemptOutcome
  | httpError (status : Nat) (retryAfterMs : Option ℚ) (body : Option String) : AttemptOutcome
  | netError (aborted : Bool) : AttemptOutcome

/-- The message of the error thrown for a fatal non-ok HTTP response. -/
def canvasStatusMessage (url : String) (status : Nat) : String :=
  "Canvas request to " ++ url ++ " failed with status " ++ toString status ++ "."

/-- The message of the error thrown for a fatal timeout or network failure
(the TS appends the underlying host error text in the non-abort case; that
text is omitted here). -/
def canvasNetMessage (url : String) (timeoutMs : Nat) (aborted : Bool) : String :=
  if aborted then
    "Canvas request to " ++ url ++ " timed out after " ++ toString timeoutMs ++ "ms."
  else
    "Canvas request to " ++ url ++ " failed."

/-- The result of `performRequest`: a successful response or a thrown
`CanvasHttpError`, together with the total number of attempts made. -/
inductive FetchResult where
  | success (attempts : Nat) : FetchResult
  | failure (e : CanvasHttpError) (attempts : Nat) : FetchResult
deriving DecidableEq

/-- The retry loop of `performRequest` from `src/lib/canvas.ts`, from loop
index `attempt` with `fuel` iterations left (`fuel = maxRetries + 1 −
attempt` at every call).  `script` gives each attempt's outcome.  Retry:
`attempt < maxRetries && (status === 429 || status >= 500)` for HTTP errors,
`attempt < maxRetries` for thrown timeout/network errors.  The waits between
retries (`calculateBackoff(retryDelayMs, attempt + 1, retryAfter)`) do not
affect the result and are not recorded.  The `fuel = 0` case is the
`throw` after the `for` loop, unreachable since the last attempt always
returns or throws. -/
def performRequestAux (maxRetries : Nat) (url : String) (timeoutMs : Nat)
    (script : Nat → AttemptOutcome) : Nat → Nat → FetchResult
  | attempt, 0 =>
      .failure { message := "Canvas request to " ++ url ++ " failed after retries."
                 status := 0, url := url, bodySnippet := none } attempt
  | attempt, fuel + 1 =>
      match script attempt with
      | .ok => .success (attempt + 1)
      | .httpError status _retryAfterMs body =>
          if attempt < maxRetries ∧ (status = 429 ∨ 500 ≤ status) then
            performRequestAux maxRetries url timeoutMs script (attempt + 1) fuel
          else
            .failure { message := canvasStatusMessage url status, status := status,
                       url := url, bodySnippet := extractSnippet body } (attempt + 1)
      | .netError aborted =>
          if attempt < maxRetries then
            performRequestAux maxRetries url timeoutMs script (attempt + 1) fuel
          else
            .failure { message := canvasNetMessage url timeoutMs aborted, status := 0,
                       url := url, bodySnippet := none } (attempt + 1)

/-- `performRequest` from `src/lib/canvas.ts`: the loop entered at attempt 0
with `maxRetries + 1` iterations available. -/
def performRequest (maxRetries : Nat) (url : String) (timeoutMs : Nat)
    (script : Nat → AttemptOutcome) : FetchResult :=
  performRequestAux maxRetries url timeoutMs script 0 (maxRetries + 1)

/-- An outcome the loop retries whenever budget remains: a 429 or ≥500
response, or a thrown timeout/network error. -/
def transientOutcome : AttemptOutcome → Prop
  | .ok => False
  | .httpError status _ _ => status = 429 ∨ 500 ≤ status
  | .netError _ => True

/-- Transient outcomes with budget remaining are retried: the loop advances
past them. -/
theorem performRequestAux_reach (maxRetries : Nat) (url : String) (timeoutMs : Nat)
    (script : Nat → AttemptOutcome) :
    ∀ (k attempt fuel : Nat),
      (∀ i, i < k → transientOutcome (script (attempt + i))) →
      attempt + k ≤ maxRetries →
      performRequestAux maxRetries url timeoutMs script attempt (fuel + k) =
        performRequestAux maxRetries url timeoutMs script (attempt + k) fuel := by
  intro k
  induction k with
  | zero => intro attempt fuel _ _; rfl
  | succ k ih =>
      intro attempt fuel hpre hbudget
      have htrans : transientOutcome (script attempt) := by
        have := hpre 0 (Nat.succ_pos k)
        simpa using this
      have hlt : attempt < maxRetries := by omega
      have hstep : performRequestAux maxRetries url timeoutMs script attempt (fuel + (k + 1)) =
          performRequestAux maxRetries url timeoutMs script (attempt + 1) (fuel + k) := by
        rw [show fuel + (k + 1) = (fuel + k) + 1 by omega]
        cases hs : script attempt with
        | ok => rw [hs] at htrans; exact absurd htrans (by simp [transientOutcome])
        | httpError status hint body =>
            rw [hs] at htrans
            simp only [performRequestAux, hs]
            rw [if_pos ⟨hlt, htrans⟩]
        | netError aborted =>
            simp only [performRequestAux, hs]
            rw [if_pos hlt]
      rw [hstep]
      have hpre' : ∀ i, i < k → transientOutcome (script (attempt + 1 + i)) := by
        intro i hi
        have := hpre (i + 1) (by omega)
        rwa [show attempt + (i + 1) = attempt + 1 + i by omega] at this
      rw [ih (attempt + 1) fuel hpre' (by omega)]
      rw [show attempt + 1 + k = attempt + (k + 1) by omega]

/-- After `k` transient attempts, the run is at attempt `k` with
`maxRetries + 1 − k` iterations left. -/
theorem performRequest_shift (maxRetries : Nat) (url : String) (timeoutMs : Nat)
    (script : Nat → AttemptOutcome) (k : Nat)
    (hpre : ∀ i, i < k → transientOutcome (script i)) (hk : k ≤ maxRetries) :
    performRequest maxRetries url timeoutMs script =
      performRequestAux maxRetries url timeoutMs script k (maxRetries - k + 1) := by
  unfold performRequest
  have h1 : maxRetries + 1 = (maxRetries - k + 1) + k := by omega
  rw [h1, performRequestAux_reach maxRetries url timeoutMs script k 0 (maxRetries - k + 1)
    (by intro i hi; simpa using hpre i hi) (by omega), Nat.zero_add]

/-- A success at attempt `k` after `k` transient attempts yields
`success (k + 1)`. -/
theorem performRequest_success_at (maxRetries : Nat) (url : String) (timeoutMs : Nat)
    (script : Nat → AttemptOutcome) (k : Nat)
    (hpre : ∀ i, i < k → transientOutcome (script i)) (hk : k ≤ maxRetries)
    (hs : script k = .ok) :
    performRequest maxRetries url timeoutMs script = .success (k + 1) := by
  rw [performRequest_shift maxRetries url timeoutMs script k hpre hk]
  simp only [performRequestAux, hs]

/-- A non-ok HTTP response at attempt `k` that is not retried (non-retryable
status, or budget exhausted) throws `CanvasHttpError` with that status, the
target URL and the extracted body snippet, after `k + 1` attempts. -/
theorem performRequest_fatal_http_at (maxRetries : Nat) (url : String) (timeoutMs : Nat)
    (script : Nat → AttemptOutcome) (k status : Nat) (hint : Option ℚ) (body : Option String)
    (hpre : ∀ i, i < k → transientOutcome (script i)) (hk : k ≤ maxRetries)
    (hs : script k = .httpError status hint body)
    (hfatal : ¬ (k < maxRetries ∧ (status = 429 ∨ 500 ≤ status))) :
    performRequest maxRetries url timeoutMs script =
      .failure { message := canvasStatusMessage url status, status := status,
                 url := url, bodySnippet := extractSnippet body } (k + 1) := by
  rw [performRequest_shift maxRetries url timeoutMs script k hpre hk]
  simp only [performRequestAux, hs]
  rw [if_neg hfatal]

/-- A thrown timeout/network error at attempt `k` with the budget exhausted
throws `CanvasHttpError` with status 0, the target URL and no snippet, after
`k + 1` attempts. -/
theorem performRequest_fatal_net_at (maxRetries : Nat) (url : String) (timeoutMs : Nat)
    (script : Nat → AttemptOutcome) (k : Nat) (aborted : Bool)
    (hpre : ∀ i, i < k → transientOutcome (script i)) (hk : k = maxRetries)
    (hs : script k = .netError aborted) :
    performRequest maxRetries url timeoutMs script =
      .failure { message := canvasNetMessage url timeoutMs aborted, status := 0,
                 url := url, bodySnippet := none } (k + 1) := by
  rw [performRequest_shift maxRetries url timeoutMs script k hpre (le_of_eq hk)]
  simp only [performRequestAux, hs]
  rw [if_neg (by omega)]

/-! ## C4 — upstream retry classification -/

/-- C4: an attempt is retried exactly when its outcome is transient (429 or
≥500, or a thrown timeout/network error) and budget remains.  After `k` such
retried attempts (`k ≤ maxRetries`): a success at attempt `k` ends the run
with `k + 1` attempts; a non-ok response whose status is neither 429 nor ≥500
is fatal immediately, with `k + 1` attempts and no further retry, whatever
budget remains; and when the budget is exhausted (`k = maxRetries`) even a
transient status or a network error is fatal at `k + 1` attempts (status 0
for the network case). -/
theorem upstream_retry_classification (maxRetries : Nat) (url : String) (timeoutMs : Nat)
    (script : Nat → AttemptOutcome) (k : Nat)
    (hpre : ∀ i, i < k → transientOutcome (script i)) (hk : k ≤ maxRetries) :
    (script k = .ok → performRequest maxRetries url timeoutMs script = .success (k + 1))
    ∧ (∀ status hint body, script k = .httpError status hint body →
        ¬ (status = 429 ∨ 500 ≤ status) →
        performRequest maxRetries url timeoutMs script =
          .failure { message := canvasStatusMessage url status, status := status,
                     url := url, bodySnippet := extractSnippet body } (k + 1))
    ∧ (k = maxRetries → ∀ status hint body, script k = .httpError status hint body →
        performRequest maxRetries url timeoutMs script =
          .failure { message := canvasStatusMessage url status, status := status,
                     url := url, bodySnippet := extractSnippet body } (k + 1))
    ∧ (k = maxRetries → ∀ aborted, script k = .netError aborted →
        performRequest maxRetries url timeoutMs script =
          .failure { message := canvasNetMessage url timeoutMs aborted, status := 0,
                     url := url, bodySnippet := none } (k + 1)) := by
  refine ⟨?_, ?_, ?_, ?_⟩
  · exact performRequest_success_at maxRetries url timeoutMs script k hpre hk
  · intro status hint body hs hnr
    exact performRequest_fatal_http_at maxRetries url timeoutMs script k status hint body
      hpre hk hs (fun hc => hnr hc.2)
  · intro hkm status hint body hs
    exact performRequest_fatal_http_at maxRetries url timeoutMs script k status hint body
      hpre hk hs (fun hc => absurd hc.1 (by omega))
  · intro hkm aborted hs
    exact performRequest_fatal_net_at maxRetries url timeoutMs script k aborted hpre hkm hs

/-- Concrete target URLs for the fetch witnesses. -/
def urlCourses : String := "https://canvas.test/api/v1/courses"

/-- Concrete profile URL for the fetch witnesses. -/
def urlProfile : String := "https://canvas.test/api/v1/users/self/profile"

/-- Attempt script for the claim's scenario: a 429 with a zero-second
`Retry-After` hint, then a 200. -/
def script429Then200 : Nat → AttemptOutcome := fun n =>
  if n = 0 then .httpError 429 (some 0) (some "Rate limited") else .ok

/-- Attempt script: every attempt answers 401. -/
def script401 : Nat → AttemptOutcome := fun _ =>
  .httpError 401 none (some "Unauthorized token")

/-- Witness for C4: with a budget of 2 retries, a 429 (zero-second hint)
followed by a 200 yields exactly 2 attempts and success; a 401 is fatal on
the very first attempt with no retry. -/
theorem upstream_retry_classification_witness :
    performRequest 2 urlCourses 10000 script429Then200 = .success 2
    ∧ performRequest 2 urlProfile 10000 script401 =
        FetchResult.failure
          ⟨canvasStatusMessage urlProfile 401, 401, urlProfile,
            extractSnippet (some "Unauthorized token")⟩ 1 :=
  ⟨(upstream_retry_classification 2 urlCourses 10000
      script429Then200 1
      (fun i hi => by
        have h0 : i = 0 := by omega
        subst h0
        exact Or.inl rfl)
      (by omega)).1 rfl,
    (upstream_retry_classification 2 urlProfile 10000
      script401 0 (fun i hi => absurd hi (by omega)) (by omega)).2.1
      401 none (some "Unauthorized token") rfl (by decide)⟩

/-! ## C6 — fatal upstream error contents -/

theorem jsSlice_length (s : String) (n : Nat) : (jsSlice s n).length = min n s.length := by
  show (s.toList.take n).length = min n s.length
  rw [List.length_take]
  rfl

theorem jsString_length_append (a b : String) : (a ++ b).length = a.length + b.length := by
  show (a.data ++ b.data).length = a.data.length + b.data.length
  exact List.length_append a.data b.data

/-- A 201-character body used to exhibit snippet truncation. -/
def longBody : String := String.mk (List.replicate 201 'a')

set_option maxRecDepth 8000 in
/-- C6 counterexample: a 201-character body is truncated to the 200-character
prefix plus the ellipsis marker — a snippet of 201 characters, exceeding the
claimed 200-character bound. -/
theorem snippet_exceeds_claimed_bound :
    extractSnippet (some longBody) = some (String.mk (List.replicate 200 'a') ++ "…")
    ∧ ¬ (String.mk (List.replicate 200 'a') ++ "…").length ≤ 200 := by
  constructor
  · rfl
  · decide

/-- C6 (amended): every extracted snippet has at most 201 characters; it
equals the trimmed body when that fits in 200 characters, and otherwise it is
the 200-character prefix of the trimmed body with the ellipsis marker
appended — 201 characters exactly, appended precisely when the trimmed body
exceeds the 200-character bound.  A fatal non-ok response raises a
`CanvasHttpError` carrying that HTTP status, the target URL and the snippet
of its body; a fatal timeout/network failure raises one with status 0, the
target URL and no snippet. -/
theorem upstream_error_contents :
    (∀ b s : String, extractSnippet (some b) = some s →
        s.length ≤ 201
        ∧ ((jsTrim b).length ≤ ERROR_BODY_SNIPPET_LIMIT → s = jsTrim b)
        ∧ (ERROR_BODY_SNIPPET_LIMIT < (jsTrim b).length →
            s = jsSlice (jsTrim b) ERROR_BODY_SNIPPET_LIMIT ++ "…" ∧ s.length = 201))
    ∧ (∀ (maxRetries : Nat) (url : String) (timeoutMs : Nat)
        (script : Nat → AttemptOutcome) (k status : Nat) (hint : Option ℚ)
        (body : Option String),
        (∀ i, i < k → transientOutcome (script i)) → k ≤ maxRetries →
        script k = .httpError status hint body →
        ¬ (k < maxRetries ∧ (status = 429 ∨ 500 ≤ status)) →
        performRequest maxRetries url timeoutMs script =
          .failure { message := canvasStatusMessage url status, status := status,
                     url := url, bodySnippet := extractSnippet body } (k + 1))
    ∧ (∀ (maxRetries : Nat) (url : String) (timeoutMs : Nat)
        (script : Nat → AttemptOutcome) (k : Nat) (aborted : Bool),
        (∀ i, i < k → transientOutcome (script i)) → k = maxRetries →
        script k = .netError aborted →
        performRequest maxRetries url timeoutMs script =
          .failure { message := canvasNetMessage url timeoutMs aborted, status := 0,
                     url := url, bodySnippet := none } (k + 1)) := by
  have hconst : ERROR_BODY_SNIPPET_LIMIT = 200 := rfl
  refine ⟨?_, performRequest_fatal_http_at, performRequest_fatal_net_at⟩
  intro b s h
  simp only [extractSnippet] at h
  by_cases he : b.isEmpty
  · rw [if_pos he] at h
    exact absurd h (by simp)
  · rw [if_neg he] at h
    by_cases hlen : (jsTrim b).length ≤ ERROR_BODY_SNIPPET_LIMIT
    · rw [if_pos hlen] at h
      injection h with h'
      subst h'
      refine ⟨by omega, fun _ => rfl, fun hlt => absurd hlen (by omega)⟩
    · rw [if_neg hlen] at h
      injection h with h'
      subst h'
      have hslen : (jsSlice (jsTrim b) ERROR_BODY_SNIPPET_LIMIT ++ "…").length = 201 := by
        rw [jsString_length_append, jsSlice_length]
        have h1 : ("…" : String).length = 1 := rfl
        rw [h1, hconst]
        omega
      exact ⟨by omega, fun hle => absurd hle hlen, fun _ => ⟨rfl, hslen⟩⟩

/-- Attempt script: every attempt answers 500 with a long body. -/
def script500 : Nat → AttemptOutcome := fun _ => .httpError 500 none (some longBody)

/-- Witness for C6: the snippet law applied to a small body with surrounding
whitespace, and the fatal cases applied to two consecutive 500s exhausting a
budget of 1 retry and to an immediate timeout. -/
theorem upstream_error_contents_witness :
    (("hi" : String).length ≤ 201
      ∧ ((jsTrim " hi ").length ≤ ERROR_BODY_SNIPPET_LIMIT → "hi" = jsTrim " hi ")
      ∧ (ERROR_BODY_SNIPPET_LIMIT < (jsTrim " hi ").length →
          "hi" = jsSlice (jsTrim " hi ") ERROR_BODY_SNIPPET_LIMIT ++ "…"
          ∧ ("hi" : String).length = 201))
    ∧ performRequest 1 urlProfile 10000 script500 =
        FetchResult.failure
          ⟨canvasStatusMessage urlProfile 500, 500, urlProfile,
            extractSnippet (some longBody)⟩ 2
    ∧ performRequest 0 urlCourses 10000
        (fun _ => .netError true) =
        FetchResult.failure
          ⟨canvasNetMessage urlCourses 10000 true, 0, urlCourses, none⟩ 1 :=
  ⟨upstream_error_contents.1 " hi " "hi" rfl,
    upstream_error_contents.2.1 1 urlProfile 10000
      script500 1 500 none (some longBody)
      (fun i hi => by
        have h0 : i = 0 := by omega
        subst h0
        exact Or.inr (by omega))
      (by omega) rfl (by omega),
    upstream_error_contents.2.2 0 urlCourses 10000
      (fun _ => .netError true) 0 true (fun i hi => absurd hi (by omega)) rfl rfl⟩

/-! ## src/lib/canvas.ts — link-header parsing and pagination -/

/-- JS `String.prototype.split` with a single-character separator, over the
character list. -/
def splitOnChar (sep : Char) : List Char → List (List Char)
  | [] => [[]]
  | c :: rest =>
      match splitOnChar sep rest with
      | [] => [[]]
      | cur :: others => if c = sep then [] :: cur :: others else (c :: cur) :: others

/-- `rawValue.replace(/^"/, '').replace(/"$/, '')` from `parseLinkHeader`. -/
def stripQuotes (l : List Char) : List Char :=
  let l1 := if l.head? = some '"' then l.drop 1 else l
  if l1.getLast? = some '"' then l1.dropLast else l1

/-- `parseLinkHeader` from `src/lib/canvas.ts`: parse a
`<url>; rel="name"` comma-separated header into a relation-name → URL
dictionary.  The JS guard `if (!header)` also catches the empty string. -/
def parseLinkHeader (header : Option String) : List (String × String) :=
  match header with
  | none => []
  | some h =>
      if h.isEmpty then []
      else
        (splitOnChar ',' h.toList).foldl (fun acc part =>
          match (splitOnChar ';' part).map trimCharList with
          | [] => acc
          | urlPart :: restSegs =>
              if urlPart.head? = some '<' ∧ urlPart.getLast? = some '>' then
                let url := (urlPart.drop 1).dropLast
                restSegs.foldl (fun acc2 seg =>
                  match (splitOnChar '=' seg).map trimCharList with
                  | key :: rawValue :: _ =>
                      if key = "rel".toList ∧ rawValue ≠ [] then
                        mapSet acc2 (String.mk (stripQuotes rawValue)) (String.mk url)
                      else acc2
                  | _ => acc2) acc
              else acc) []

/-- Models the host URL resolution used by `listCourses`
(`new URL(links.next, config.baseUrl)` followed by `pathname + search`) for
absolute `http(s)://` links: drop the scheme and authority, drop any
fragment, and keep the path and query (a leading `/` is supplied when the
authority is followed directly by a query or nothing).  Relative links are
outside the model (`none`); Canvas `Link` headers carry absolute URLs. -/
def resolvePathQuery (link : String) : Option String :=
  let l := link.toList
  let afterScheme : Option (List Char) :=
    if l.take 8 = "https://".toList then some (l.drop 8)
    else if l.take 7 = "http://".toList then some (l.drop 7)
    else none
  afterScheme.map fun rest =>
    let afterHost := rest.dropWhile fun c => !(c == '/' || c == '?' || c == '#')
    let noFrag := afterHost.takeWhile fun c => c != '#'
    if noFrag.head? = some '/' then String.mk noFrag else String.mk ('/' :: noFrag)

/-- One scripted page response: the parsed items of the JSON body and the raw
`Link` response header (`authorizedGetJson`'s two outputs). -/
structure Page (α : Type) where
  items : List α
  linkHeader : Option String

/-- The `listCourses` loop from `src/lib/canvas.ts`: fetch the page at `url`
(`fetchPage` models `authorizedGetJson`; each call is exactly one upstream
request), append its items, and continue at the resolved path + query of the
`next` link relation while one is present.  Returns the concatenated items
together with the trace of requested URLs (one entry per upstream call);
`none` when the fuel runs out or a `next` link is not an absolute http(s)
URL. -/
def listCoursesGo {α : Type} (fetchPage : String → Page α) :
    Nat → String → Option (List α × List String)
  | 0, _ => none
  | fuel + 1, url =>
      let page := fetchPage url
      match mapGet (parseLinkHeader page.linkHeader) "next" with
      | none => some (page.items, [url])
      | some link =>
          match resolvePathQuery link with
          | none => none
          | some nextUrl =>
              match listCoursesGo fetchPage fuel nextUrl with
              | none => none
              | some (items, urls) => some (page.items ++ items, url :: urls)

/-- The first page URL of `listCourses`. -/
def listCoursesStartUrl : String := "/courses?enrollment_state=active&per_page=50"

/-- A well-formed page chain: each page is what `fetchPage` returns for its
URL; every page but the last carries a `next` relation resolving to the next
entry's URL; the last page carries none. -/
def pageChainOk {α : Type} (fetchPage : String → Page α) :
    List (String × Page α) → Prop
  | [] => True
  | [(u, p)] =>
      fetchPage u = p ∧ mapGet (parseLinkHeader p.linkHeader) "next" = none
  | (u, p) :: (u', p') :: rest =>
      fetchPage u = p
      ∧ (∃ link, mapGet (parseLinkHeader p.linkHeader) "next" = some link
          ∧ resolvePathQuery link = some u')
      ∧ pageChainOk fetchPage ((u', p') :: rest)

/-! ## C7 — pagination aggregation -/

/-- C7: over any well-formed page chain, the pagination loop returns the
concatenation of all pages' items in response order, issues exactly one
upstream call per page (the URL trace lists each page's URL once, in order,
each the resolved path + query of the previous page's `next` link), and stops
exactly at the first page without a `next` relation. -/
theorem pagination_aggregates {α : Type} (fetchPage : String → Page α)
    (u : String) (p : Page α) (rest : List (String × Page α))
    (h : pageChainOk fetchPage ((u, p) :: rest)) :
    listCoursesGo fetchPage (rest.length + 1) u =
      some ((((u, p) :: rest).map fun e => e.2.items).flatten,
        ((u, p) :: rest).map fun e => e.1) := by
  induction rest generalizing u p with
  | nil =>
      obtain ⟨hf, hnone⟩ := h
      simp [listCoursesGo, hf, hnone]
  | cons hd tl ih =>
      obtain ⟨u', p'⟩ := hd
      obtain ⟨hf, ⟨link, hlink, hres⟩, hchain⟩ := h
      have hrec := ih u' p' hchain
      simp only [List.length_cons]
      rw [listCoursesGo]
      simp only [hf, hlink, hres, hrec]
      simp

/-- The second page URL of the pagination witness. -/
def coursesPageTwoUrl : String := "/api/v1/courses?page=2&per_page=50"

/-- First scripted page: two courses and a `next` link. -/
def pageOne : Page Nat :=
  ⟨[1, 2], some "<https://canvas.test/api/v1/courses?page=2&per_page=50>; rel=\"next\""⟩

/-- Second (final) scripted page: one course, no link header. -/
def pageTwo : Page Nat := ⟨[3], none⟩

/-- The scripted upstream for the pagination witness. -/
def fetchPagesDemo : String → Page Nat := fun url =>
  if url = listCoursesStartUrl then pageOne
  else if url = coursesPageTwoUrl then pageTwo
  else ⟨[], none⟩

/-- Witness for C7: a first page of 2 items with a `next` link followed by a
final page of 1 item yields the 3 items in original order from exactly 2
upstream calls. -/
theorem pagination_aggregates_witness :
    listCoursesGo fetchPagesDemo 2 listCoursesStartUrl =
      some ([1, 2, 3], [listCoursesStartUrl, coursesPageTwoUrl]) := by
  have h := pagination_aggregates fetchPagesDemo listCoursesStartUrl pageOne
    [(coursesPageTwoUrl, pageTwo)]
    ⟨rfl, ⟨"https://canvas.test/api/v1/courses?page=2&per_page=50", rfl, rfl⟩, rfl, rfl⟩
  simpa [pageOne, pageTwo] using h
